import Mathlib

/-!
Verification of the lab-session cleanup worker.

Shallow embedding of the cleanup subsystem of the Cloudflare worker:
the Durable Object `SessionManager` (src/durable-objects/SessionManager.ts),
the session-store handler `createLabSession` (handlers module), and the
authentication utilities (src/utils.ts).

Conventions of the embedding:
* JS strings used only for equality tests are Lean `String`; strings whose
  characters are inspected (the Authorization header) are `List Char`,
  with `charCodeAt` rendered as `Char.toNat`.
* A JS value that may be `undefined` is an `Option`; JS truthiness of a
  string (`!s` is false iff `s` is a non-empty string) is `strPresent`,
  of a number (`!n` is false iff `n ≠ 0`) is `numPresent`.
* Durable Object storage is a record of `Option` fields plus the single
  alarm slot; `storage.put` / `setAlarm` / `deleteAll` are functional
  updates.  `JSON.stringify`/`JSON.parse` of the worker-id list is the
  identity round-trip, so the stored value is kept as the list itself.
* `fetch` is an oracle (`Backend`) mapping each request to its outcome;
  every network call issued is recorded in an explicit trace so that
  "exactly once, in order" statements are about the trace.
-/

namespace CleanupWorker

/-- Truthiness of a possibly-undefined JS string: `!s` is false
iff the value is present and non-empty. -/
def strPresent : Option String → Bool
  | none => false
  | some s => !(s == "")

/-- Truthiness of a possibly-undefined JS number field: `!n` is false
iff the value is present and non-zero. -/
def numPresent : Option Int → Bool
  | none => false
  | some n => !(n == 0)

/-- Worker environment bindings (src/types.ts): the two backend
configuration values the cleanup path reads. -/
structure Env where
  BACKEND_API_URL : Option String
  BACKEND_API_TOKEN : Option String

/-- Outcome of one `fetch`: either a response with an HTTP status, or a
thrown network error. -/
inductive FetchResult where
  | response (status : Nat)
  | networkError
deriving DecidableEq, Repr

/-- `Response.ok` of the Fetch API: status in the 2xx range. -/
def responseOk (status : Nat) : Bool := 200 ≤ status && status ≤ 299

/-- The external backend control plane, as an oracle: the outcome of the
`DELETE /api/v1/expose/` call and, per lab_request_id, the outcome of the
`POST /api/v1/labs/delete` call. -/
structure Backend where
  deleteServices : FetchResult
  deleteResource : String → FetchResult

/-- One network call issued by the cleanup orchestration, in issue order. -/
inductive Call where
  | deleteServices (labRequestId : String)
  | deleteVm (labRequestId : String) (userId : String)
deriving DecidableEq, Repr

/-- Errors thrown by `callBackendCleanup`. -/
inductive CleanupError where
  | urlNotConfigured
  | tokenNotConfigured
  | vmDeletionsFailed (failed : Nat) (total : Nat)
deriving DecidableEq, Repr

/-- `Array.from(new Set(xs))` on an array of strings: JS `Set` iteration
order is insertion order, so duplicates after the first occurrence are
dropped. -/
def jsSetDedup (xs : List String) : List String :=
  xs.foldl (fun acc x => if x ∈ acc then acc else acc ++ [x]) []

/-- Success of one VM-delete call as judged by the loop body of
`callBackendCleanup`: a response whose status is 2xx (the `!vmResponse.ok`
check throws otherwise); a thrown network error is a failure. -/
def vmDeleteOk (backend : Backend) (id : String) : Bool :=
  match backend.deleteResource id with
  | .response st => responseOk st
  | .networkError => false

/-- `SessionManager.callBackendCleanup` (SessionManager.ts:182-285):
config checks, dedup of `[master, ...workers]` via `Set`, best-effort
exposed-services deletion for the master, then one VM-delete call per
unique id accumulating errors, throwing iff any VM deletion failed.
Returns the trace of issued calls together with the thrown error, if any. -/
def callBackendCleanup (env : Env) (backend : Backend)
    (master_lab_request_id : String) (worker_lab_request_ids : List String)
    (user_id : String) : List Call × Except CleanupError Unit :=
  if !(strPresent env.BACKEND_API_URL) then
    ([], .error .urlNotConfigured)
  else if !(strPresent env.BACKEND_API_TOKEN) then
    ([], .error .tokenNotConfigured)
  else
    let allLabRequestIds := jsSetDedup (master_lab_request_id :: worker_lab_request_ids)
    -- Step 1: delete exposed services for the master VM, best effort:
    -- both the non-ok-status branch and the thrown-error branch only log.
    let servicesCalls := [Call.deleteServices master_lab_request_id]
    -- Step 2: delete every VM, accumulating per-id success/error.
    let vmCalls := allLabRequestIds.map (fun id => Call.deleteVm id user_id)
    let failedIds := allLabRequestIds.filter (fun id => !(vmDeleteOk backend id))
    let verdict : Except CleanupError Unit :=
      if failedIds.length > 0 then
        .error (.vmDeletionsFailed failedIds.length allLabRequestIds.length)
      else
        .ok ()
    (servicesCalls ++ vmCalls, verdict)

/-- Durable Object storage of one `SessionManager` instance: the five
session keys written by `scheduleCleanup`, plus the single alarm slot
(`setAlarm` replaces it, `deleteAlarm` clears it).  The worker-id list is
stored JSON-encoded in the source; the encode/parse round-trip is the
identity, so the list itself is kept.  Times are epoch milliseconds. -/
structure Storage where
  user_id : Option String
  lab_request_id : Option String
  worker_lab_request_ids : Option (List String)
  duration : Option Int
  created_at : Option Int
  alarm : Option Int
deriving DecidableEq, Repr

/-- `state.storage.deleteAll()` combined with `deleteAlarm()`: everything
absent. -/
def Storage.empty : Storage :=
  { user_id := none, lab_request_id := none, worker_lab_request_ids := none,
    duration := none, created_at := none, alarm := none }

/-- Request body of `POST /schedule` as read by `scheduleCleanup`:
`worker_lab_request_ids` is optional, every field may be absent in the
incoming JSON. -/
structure ScheduleBody where
  user_id : Option String
  lab_request_id : Option String
  worker_lab_request_ids : Option (List String)
  duration : Option Int
deriving DecidableEq, Repr

/-- Response of `scheduleCleanup`, keeping the fields the claims are
about: the 400 missing-fields error, or the success payload with its
`expires_at` instant. -/
inductive ScheduleOutcome where
  | missingFields
  | scheduled (user_id lab_request_id : String) (expires_at : Int)
    (duration_minutes : Int)
deriving DecidableEq, Repr

/-- `SessionManager.scheduleCleanup` (SessionManager.ts:37-92): validate
`user_id`, `lab_request_id`, `duration` by truthiness (400 with no write
if any fails), then put the five session keys, compute
`expirationMs = now + duration*60*1000` and `setAlarm` it, and answer
with the expiration instant. -/
def scheduleCleanup (body : ScheduleBody) (now : Int) (st : Storage) :
    Storage × ScheduleOutcome :=
  if !(strPresent body.user_id) || !(strPresent body.lab_request_id) ||
      !(numPresent body.duration) then
    (st, .missingFields)
  else
    let u := body.user_id.getD ""
    let l := body.lab_request_id.getD ""
    let d := body.duration.getD 0
    let expirationMs := now + d * 60 * 1000
    ({ user_id := some u,
       lab_request_id := some l,
       worker_lab_request_ids := some (body.worker_lab_request_ids.getD []),
       duration := some d,
       created_at := some now,
       alarm := some expirationMs },
     .scheduled u l expirationMs d)

/-- `SessionManager.cancelCleanup` (SessionManager.ts:97-126):
`deleteAlarm()` then `deleteAll()`, answering with the stored user id
(possibly absent). -/
def cancelCleanup (st : Storage) : Storage × Option String :=
  (Storage.empty, st.user_id)

/-- Result of one `alarm()` invocation: the storage afterwards, the
backend calls issued, and whether the D1 `DELETE FROM labs_sessions` was
attempted.  `alarm()` returns `void` and catches every exception, so no
error component exists. -/
structure AlarmResult where
  storage : Storage
  calls : List Call
  dbDeleteAttempted : Bool
deriving DecidableEq, Repr

/-- Retry delay of the alarm handler: `5 * 60 * 1000` ms. -/
def retryDelayMs : Int := 5 * 60 * 1000

/-- `SessionManager.alarm` (SessionManager.ts:132-176): read the session
keys; if `user_id` or `lab_request_id` is falsy, log and return (no call,
no store access).  Otherwise run `callBackendCleanup`, then
`deleteFromDatabase` (whose success is the oracle `dbOk`; on
`success: false` or a thrown D1 error it raises), then `deleteAll()`.
Any exception is caught and answered by `setAlarm(now + 5 minutes)`,
leaving the rest of the storage untouched. -/
def alarm (env : Env) (backend : Backend) (dbOk : Bool) (now : Int)
    (st : Storage) : AlarmResult :=
  let worker_lab_request_ids := st.worker_lab_request_ids.getD []
  if !(strPresent st.user_id) || !(strPresent st.lab_request_id) then
    { storage := st, calls := [], dbDeleteAttempted := false }
  else
    let (calls, verdict) := callBackendCleanup env backend
      (st.lab_request_id.getD "") worker_lab_request_ids (st.user_id.getD "")
    match verdict with
    | .error _ =>
        { storage := { st with alarm := some (now + retryDelayMs) },
          calls := calls, dbDeleteAttempted := false }
    | .ok _ =>
        if dbOk then
          { storage := Storage.empty, calls := calls, dbDeleteAttempted := true }
        else
          { storage := { st with alarm := some (now + retryDelayMs) },
            calls := calls, dbDeleteAttempted := true }

/-- Truthiness of an optional JS object field (`vm`): any object is
truthy, so present iff defined. -/
def objPresent {α : Type} : Option α → Bool
  | none => false
  | some _ => true

/-- Request body of `POST /api/v1/labs/sessions` (the `LabSession`
interface of src/types.ts); every field may be absent in the incoming
JSON, the `vm` object is kept opaque. -/
structure LabSessionBody where
  id : Option String
  labId : Option String
  labTitle : Option String
  labGroupID : Option String
  moduleID : Option String
  duration : Option Int
  activatedAt : Option String
  counterID : Option String
  configId : Option String
  workerConfigId : Option String
  lab_request_id : Option String
  user_id : Option String
  terminal_url : Option String
  validation : Option Int
  vscode_domain : Option String
  puku_domain : Option String
  vm : Option String
  worker_nodes : Option String
  loadBalancers : Option String
deriving DecidableEq, Repr

/-- `validateRequiredFields(body, requiredFields)` specialised to
`createLabSession`'s `requiredFields` list: the required fields whose
value is falsy, in the order of that list. -/
def labSessionMissingFields (b : LabSessionBody) : List String :=
  (if strPresent b.labId then [] else ["labId"]) ++
  (if strPresent b.labTitle then [] else ["labTitle"]) ++
  (if strPresent b.labGroupID then [] else ["labGroupID"]) ++
  (if strPresent b.moduleID then [] else ["moduleID"]) ++
  (if numPresent b.duration then [] else ["duration"]) ++
  (if strPresent b.activatedAt then [] else ["activatedAt"]) ++
  (if strPresent b.counterID then [] else ["counterID"]) ++
  (if strPresent b.configId then [] else ["configId"]) ++
  (if strPresent b.workerConfigId then [] else ["workerConfigId"]) ++
  (if strPresent b.lab_request_id then [] else ["lab_request_id"]) ++
  (if strPresent b.user_id then [] else ["user_id"]) ++
  (if strPresent b.terminal_url then [] else ["terminal_url"]) ++
  (if numPresent b.validation then [] else ["validation"]) ++
  (if objPresent b.vm then [] else ["vm"])

/-- A row of the `labs_sessions` D1 table, as inserted by
`createLabSession`: the generated/provided id, the `user_id` key the
store is queried by, and the remaining column values from the body. -/
structure DbRow where
  id : String
  user_id : String
  body : LabSessionBody
deriving DecidableEq, Repr

/-- Response of `createLabSession`, keeping the status distinctions the
claims are about. -/
inductive CreateOutcome where
  | invalidJson
  | missingFields (missing : List String)
  | conflict
  | created (id : String)
deriving DecidableEq, Repr

/-- `createLabSession` (handlers module): parse the body (400 on invalid
JSON), validate the fourteen required fields (400 listing the missing
ones), take `body.id || generateUUID()` as the session id, query
`labs_sessions` for an existing row with the same `user_id` (409 with no
write if found), otherwise insert the new row.  `genId` is the
`generateUUID()` oracle. -/
def createLabSession (db : List DbRow) (body : Option LabSessionBody)
    (genId : String) : List DbRow × CreateOutcome :=
  match body with
  | none => (db, .invalidJson)
  | some b =>
    let missing := labSessionMissingFields b
    if !(missing.isEmpty) then
      (db, .missingFields missing)
    else
      let sessionId := if strPresent b.id then b.id.getD "" else genId
      match db.find? (fun r => r.user_id == b.user_id.getD "") with
      | some _ => (db, .conflict)
      | none =>
          (db ++ [{ id := sessionId, user_id := b.user_id.getD "", body := b }],
           .created sessionId)

/-- JS `String.prototype.split` with a single-character separator, on the
code-unit list: splits at every occurrence of `sep`, keeping empty
pieces, `[""]` for the empty string. -/
def splitChar (sep : Char) : List Char → List (List Char)
  | [] => [[]]
  | c :: cs =>
    match splitChar sep cs with
    | [] => [[c]]
    | h :: t => if c = sep then [] :: h :: t else (c :: h) :: t

/-- `extractBearerToken` (utils.ts:140-153): read the `Authorization`
header (absent ⇒ null), split on a space; unless exactly two parts with
the first equal to `"Bearer"`, null; otherwise the second part. -/
def extractBearerToken (authHeader : Option (List Char)) : Option (List Char) :=
  match authHeader with
  | none => none
  | some h =>
    match splitChar ' ' h with
    | [p0, p1] => if p0 = "Bearer".toList then some p1 else none
    | _ => none

/-- `timingSafeEqual` (utils.ts:178-189): false on differing lengths,
otherwise OR together the XORs of the aligned character codes and compare
with 0. -/
def timingSafeEqual (a b : List Char) : Bool :=
  if a.length != b.length then false
  else
    (List.zipWith (fun x y => x.toNat ^^^ y.toNat) a b).foldl (· ||| ·) 0 == 0

/-- Truthiness of a possibly-undefined JS string rendered as a character
list. -/
def charsPresent : Option (List Char) → Bool
  | none => false
  | some s => !(s == [])

/-- `authenticateRequest` (utils.ts:159-172): with no configured token
(`undefined` or empty), authentication is disabled and every request
passes; otherwise extract the bearer token (falsy ⇒ reject) and compare
it to the configured one with `timingSafeEqual`. -/
def authenticateRequest (authHeader : Option (List Char))
    (expectedToken : Option (List Char)) : Bool :=
  if !(charsPresent expectedToken) then true
  else
    match extractBearerToken authHeader with
    | none => false
    | some token =>
      if token = [] then false
      else timingSafeEqual token (expectedToken.getD [])

/-- A fully-populated create-session body, used to instantiate the
create-session theorems on concrete inputs. -/
def sampleBody : LabSessionBody :=
  { id := some "s1", labId := some "lab", labTitle := some "t",
    labGroupID := some "g", moduleID := some "m", duration := some 60,
    activatedAt := some "2024-01-01", counterID := some "c",
    configId := some "cfg", workerConfigId := some "wc",
    lab_request_id := some "lr", user_id := some "u1",
    terminal_url := some "http://t", validation := some 1,
    vscode_domain := none, puku_domain := none, vm := some "vm",
    worker_nodes := none, loadBalancers := none }

/-- A second valid body for the same user as `sampleBody`. -/
def sampleBody2 : LabSessionBody :=
  { sampleBody with id := none, labId := some "lab2" }

/-- The store row created from `sampleBody`. -/
def sampleRow : DbRow :=
  { id := "s1", user_id := "u1", body := sampleBody }

/-! ### Helper lemmas on the `Set`-based deduplication -/

/-- Reference form of first-occurrence deduplication: keep each element's
first occurrence, drop later duplicates. -/
def dedupFirst : List String → List String
  | [] => []
  | x :: xs => x :: (dedupFirst xs).filter (fun y => y != x)

theorem mem_dedupFirst {y : String} {l : List String} :
    y ∈ dedupFirst l ↔ y ∈ l := by
  induction l with
  | nil => simp [dedupFirst]
  | cons x xs ih =>
    simp only [dedupFirst, List.mem_cons, List.mem_filter, ih, bne_iff_ne,
      decide_eq_true_eq]
    constructor
    · rintro (rfl | ⟨hy, _⟩)
      · exact Or.inl rfl
      · exact Or.inr hy
    · rintro (rfl | hy)
      · exact Or.inl rfl
      · by_cases hyx : y = x
        · exact Or.inl hyx
        · exact Or.inr ⟨hy, hyx⟩

theorem dedupFirst_nodup (l : List String) : (dedupFirst l).Nodup := by
  induction l with
  | nil => simp [dedupFirst]
  | cons x xs ih =>
    refine List.nodup_cons.mpr ⟨?_, List.Nodup.filter _ ih⟩
    intro hx
    rcases List.mem_filter.mp hx with ⟨-, hne⟩
    exact absurd rfl (bne_iff_ne.mp hne)

theorem dedupFirst_sublist (l : List String) : List.Sublist (dedupFirst l) l := by
  induction l with
  | nil => simp [dedupFirst]
  | cons x xs ih =>
    exact (List.filter_sublist _).trans ih |>.cons₂ x

theorem jsSetDedup_go (xs : List String) : ∀ acc : List String,
    xs.foldl (fun a x => if x ∈ a then a else a ++ [x]) acc
      = acc ++ (dedupFirst xs).filter (fun y => decide (y ∉ acc)) := by
  induction xs with
  | nil => intro acc; simp [dedupFirst]
  | cons x xs ih =>
    intro acc
    simp only [List.foldl_cons, dedupFirst, List.filter_cons]
    by_cases hx : x ∈ acc
    · rw [if_pos hx]
      have hdec : decide (x ∉ acc) = false := by simp [hx]
      rw [hdec]
      simp only [Bool.false_eq_true, if_false]
      rw [ih acc, List.filter_filter]
      congr 1
      refine List.filter_congr ?_
      intro y _
      by_cases hy : y ∈ acc
      · simp [hy]
      · have : y ≠ x := fun h => hy (h ▸ hx)
        simp [hy, this]
    · rw [if_neg hx]
      have hdec : decide (x ∉ acc) = true := by simp [hx]
      rw [hdec]
      simp only [if_true]
      rw [ih (acc ++ [x]), List.filter_filter, List.append_assoc,
        List.singleton_append]
      congr 2
      refine List.filter_congr ?_
      intro y _
      by_cases hyx : y = x
      · subst hyx; simp
      · by_cases hy : y ∈ acc <;> simp [hy, hyx]

theorem jsSetDedup_eq_dedupFirst (l : List String) :
    jsSetDedup l = dedupFirst l := by
  rw [jsSetDedup, jsSetDedup_go l []]
  simp

theorem count_dedupFirst (x : String) (l : List String) :
    (dedupFirst l).count x = if x ∈ l then 1 else 0 := by
  by_cases hx : x ∈ l
  · rw [if_pos hx]
    exact List.count_eq_one_of_mem (dedupFirst_nodup l) (mem_dedupFirst.mpr hx)
  · rw [if_neg hx]
    exact List.count_eq_zero_of_not_mem (fun h => hx (mem_dedupFirst.mp h))

/-! ### Claims about the cleanup orchestration -/

/-- C1: within one cleanup orchestration attempt, a delete-resource call
is issued for every id of the deduplicated set, in order, each exactly
once (the issued trace is the deduplicated set itself, independent of the
backend's answers, so an early failure skips nothing), and the
orchestration succeeds iff every resource deletion succeeded. -/
theorem C1_full_attempt (env : Env) (backend : Backend)
    (m u : String) (ws : List String)
    (hurl : strPresent env.BACKEND_API_URL = true)
    (htok : strPresent env.BACKEND_API_TOKEN = true) :
    (callBackendCleanup env backend m ws u).1
        = Call.deleteServices m ::
            (jsSetDedup (m :: ws)).map (fun id => Call.deleteVm id u)
    ∧ (jsSetDedup (m :: ws)).Nodup
    ∧ (∀ x, x ∈ jsSetDedup (m :: ws) ↔ x ∈ m :: ws)
    ∧ ((callBackendCleanup env backend m ws u).2 = .ok () ↔
        ∀ id ∈ jsSetDedup (m :: ws), vmDeleteOk backend id = true) := by
  rw [callBackendCleanup, hurl, htok]
  simp only [Bool.not_true, Bool.false_eq_true, if_false]
  refine ⟨rfl, ?_, ?_, ?_⟩
  · rw [jsSetDedup_eq_dedupFirst]; exact dedupFirst_nodup _
  · intro x; rw [jsSetDedup_eq_dedupFirst]; exact mem_dedupFirst
  · constructor
    · intro h id hid
      by_contra hbad
      have hmem : id ∈ (jsSetDedup (m :: ws)).filter
          (fun i => !(vmDeleteOk backend i)) := by
        refine List.mem_filter.mpr ⟨hid, ?_⟩
        simp [hbad]
      have hlen : 0 < ((jsSetDedup (m :: ws)).filter
          (fun i => !(vmDeleteOk backend i))).length :=
        List.length_pos.mpr (List.ne_nil_of_mem hmem)
      rw [if_pos hlen] at h
      exact Except.noConfusion h
    · intro h
      have hnil : (jsSetDedup (m :: ws)).filter
          (fun i => !(vmDeleteOk backend i)) = [] := by
        rw [List.filter_eq_nil_iff]
        intro a ha
        simp [h a ha]
      simp [hnil]

/-- C1 witness: with a configured backend where the first VM delete fails
and the second succeeds, both delete calls are still issued, in order. -/
theorem C1_full_attempt_witness :
    (callBackendCleanup ⟨some "http://backend", some "tkn"⟩
        ⟨.response 200, fun id => if id == "m1" then .networkError else .response 200⟩
        "m1" ["w1"] "u1").1
      = [.deleteServices "m1", .deleteVm "m1" "u1", .deleteVm "w1" "u1"] := by
  have h := C1_full_attempt ⟨some "http://backend", some "tkn"⟩
    ⟨.response 200, fun id => if id == "m1" then .networkError else .response 200⟩
    "m1" "u1" ["w1"] (by decide) (by decide)
  rw [h.1]
  decide

/-- C2: the orchestrator's resource set is the primary id followed by the
secondary ids in their given order with duplicates removed (a secondary
equal to the primary collapses into the head), and exactly one VM-delete
call is issued per unique identifier. -/
theorem C2_dedup_resource_set (env : Env) (backend : Backend)
    (m u : String) (ws : List String)
    (hurl : strPresent env.BACKEND_API_URL = true)
    (htok : strPresent env.BACKEND_API_TOKEN = true) :
    jsSetDedup (m :: ws) = m :: (dedupFirst ws).filter (fun y => y != m)
    ∧ ∀ x : String,
        (callBackendCleanup env backend m ws u).1.count (Call.deleteVm x u)
          = if x ∈ m :: ws then 1 else 0 := by
  constructor
  · rw [jsSetDedup_eq_dedupFirst, dedupFirst]
  · intro x
    rw [callBackendCleanup, hurl, htok]
    simp only [Bool.not_true, Bool.false_eq_true, if_false,
      List.singleton_append, List.count_cons]
    have hinj : Function.Injective (fun id => Call.deleteVm id u) := by
      intro a b hab
      simpa using hab
    rw [List.count_map_of_injective _ _ hinj, jsSetDedup_eq_dedupFirst,
      count_dedupFirst]
    simp

/-- C2 witness: with a secondary id equal to the primary, exactly one
VM-delete call is issued for that id. -/
theorem C2_dedup_resource_set_witness :
    (callBackendCleanup ⟨some "http://backend", some "tkn"⟩
        ⟨.response 200, fun _ => .response 200⟩
        "m1" ["m1", "w1"] "u1").1.count (Call.deleteVm "m1" "u1") = 1 := by
  have h := (C2_dedup_resource_set ⟨some "http://backend", some "tkn"⟩
    ⟨.response 200, fun _ => .response 200⟩
    "m1" "u1" ["m1", "w1"] (by decide) (by decide)).2 "m1"
  rw [h]
  decide

/-- C4: every orchestration attempt issues the exposed-services deletion
exactly once, for the primary id, however many resources are in the set;
and its outcome — success, non-2xx, or a network error — never changes
the orchestration verdict. -/
theorem C4_services_once_swallowed (env : Env)
    (f : String → FetchResult) (r₁ r₂ : FetchResult)
    (m u : String) (ws : List String)
    (hurl : strPresent env.BACKEND_API_URL = true)
    (htok : strPresent env.BACKEND_API_TOKEN = true) :
    (callBackendCleanup env ⟨r₁, f⟩ m ws u).1.countP
        (fun c => match c with | .deleteServices _ => true | _ => false) = 1
    ∧ Call.deleteServices m ∈ (callBackendCleanup env ⟨r₁, f⟩ m ws u).1
    ∧ (callBackendCleanup env ⟨r₁, f⟩ m ws u).2
        = (callBackendCleanup env ⟨r₂, f⟩ m ws u).2 := by
  rw [callBackendCleanup, callBackendCleanup, hurl, htok]
  simp only [Bool.not_true, Bool.false_eq_true, if_false,
    List.singleton_append]
  refine ⟨?_, List.mem_cons_self _ _, rfl⟩
  rw [List.countP_cons]
  simp only [List.countP_map]
  have hzero : List.countP
      ((fun c => match c with | Call.deleteServices _ => true | _ => false)
        ∘ fun id => Call.deleteVm id u) (jsSetDedup (m :: ws)) = 0 := by
    rw [List.countP_eq_zero]
    intro a _
    simp [Function.comp]
  rw [hzero]
  simp

/-- C4 witness: with two workers and a failing services call, the
services deletion is issued once and the verdict equals the one with a
succeeding services call. -/
theorem C4_services_once_swallowed_witness :
    (callBackendCleanup ⟨some "http://backend", some "tkn"⟩
        ⟨.networkError, fun _ => .response 200⟩
        "m1" ["w1", "w2"] "u1").1.countP
        (fun c => match c with | .deleteServices _ => true | _ => false) = 1 := by
  exact (C4_services_once_swallowed ⟨some "http://backend", some "tkn"⟩
    (fun _ => .response 200) .networkError (.response 200)
    "m1" "u1" ["w1", "w2"] (by decide) (by decide)).1

/-! ### Claims about the timer actor -/

/-- C3: when the alarm's cleanup fails — the orchestration returned an
error, or it succeeded and the store deletion failed — the handler
registers a new alarm at now + 5 minutes, leaves every persisted session
field unchanged, and returns normally (its result type has no error
component: the exception is contained). -/
theorem C3_alarm_failure_retry (env : Env) (backend : Backend)
    (dbOk : Bool) (now : Int) (st : Storage)
    (hu : strPresent st.user_id = true)
    (hl : strPresent st.lab_request_id = true)
    (hfail : ¬((callBackendCleanup env backend (st.lab_request_id.getD "")
        (st.worker_lab_request_ids.getD []) (st.user_id.getD "")).2.isOk = true
      ∧ dbOk = true)) :
    (alarm env backend dbOk now st).storage
      = { st with alarm := some (now + 5 * 60 * 1000) } := by
  rw [alarm, hu, hl]
  simp only [Bool.not_true, Bool.false_or, Bool.false_eq_true, if_false]
  rcases hres : (callBackendCleanup env backend (st.lab_request_id.getD "")
      (st.worker_lab_request_ids.getD []) (st.user_id.getD "")).2 with e | v
  · simp [hres, retryDelayMs]
  · have hdb : dbOk = false := by
      cases hdb : dbOk
      · rfl
      · refine absurd ⟨?_, hdb⟩ hfail
        rw [hres]
        rfl
    simp [hres, hdb, retryDelayMs]

/-- C3 witness: a backend whose VM deletion fails makes the alarm handler
keep the session fields and re-arm the alarm 5 minutes later. -/
theorem C3_alarm_failure_retry_witness :
    (alarm ⟨some "http://backend", some "tkn"⟩
        ⟨.response 200, fun _ => .networkError⟩ true 1000
        { user_id := some "u1", lab_request_id := some "l1",
          worker_lab_request_ids := some [], duration := some 60,
          created_at := some 0, alarm := none }).storage
      = { user_id := some "u1", lab_request_id := some "l1",
          worker_lab_request_ids := some [], duration := some 60,
          created_at := some 0, alarm := some (1000 + 5 * 60 * 1000) } := by
  exact C3_alarm_failure_retry ⟨some "http://backend", some "tkn"⟩
    ⟨.response 200, fun _ => .networkError⟩ true 1000
    { user_id := some "u1", lab_request_id := some "l1",
      worker_lab_request_ids := some [], duration := some 60,
      created_at := some 0, alarm := none }
    (by decide) (by decide) (by decide)

/-- C5: after `cancelCleanup` cleared all actor state, a subsequent alarm
fire is a no-op: it returns with no backend call, no store-deletion
attempt and no storage change, and it cannot crash (the handler is a
total function). -/
theorem C5_cancel_then_alarm_noop (env : Env) (backend : Backend)
    (dbOk : Bool) (now : Int) (st : Storage) :
    alarm env backend dbOk now (cancelCleanup st).1
      = { storage := (cancelCleanup st).1, calls := [],
          dbDeleteAttempted := false } := by
  rfl

/-- C6: for every positive duration, a successful `scheduleCleanup` sets
the alarm instant to call time + duration minutes, fully overwrites the
actor state (so exactly one alarm exists afterwards, whatever alarm the
prior state held), and returns that expiration instant to the caller. -/
theorem C6_schedule_sets_alarm (body : ScheduleBody) (now : Int)
    (st : Storage) (d : Int)
    (hu : strPresent body.user_id = true)
    (hl : strPresent body.lab_request_id = true)
    (hd : body.duration = some d) (hpos : 0 < d) :
    (scheduleCleanup body now st).1
      = { user_id := some (body.user_id.getD ""),
          lab_request_id := some (body.lab_request_id.getD ""),
          worker_lab_request_ids := some (body.worker_lab_request_ids.getD []),
          duration := some d,
          created_at := some now,
          alarm := some (now + d * 60 * 1000) }
    ∧ (scheduleCleanup body now st).2
      = .scheduled (body.user_id.getD "") (body.lab_request_id.getD "")
          (now + d * 60 * 1000) d := by
  have hdur : numPresent body.duration = true := by
    rw [hd]
    have hne : ¬d = 0 := by omega
    simp [numPresent, hne]
  rw [scheduleCleanup, hu, hl, hdur]
  simp [hd]

/-- C6 witness: scheduling for 60 minutes at time 0 over a state with a
stale alarm replaces it with an alarm at 3\,600\,000 ms and reports that
instant. -/
theorem C6_schedule_sets_alarm_witness :
    (scheduleCleanup
        { user_id := some "u1", lab_request_id := some "l1",
          worker_lab_request_ids := some ["w1"], duration := some 60 } 0
        { user_id := some "old", lab_request_id := some "old",
          worker_lab_request_ids := none, duration := some 5,
          created_at := some 7, alarm := some 999 }).1.alarm
      = some 3600000 := by
  have h := C6_schedule_sets_alarm
    { user_id := some "u1", lab_request_id := some "l1",
      worker_lab_request_ids := some ["w1"], duration := some 60 } 0
    { user_id := some "old", lab_request_id := some "old",
      worker_lab_request_ids := none, duration := some 5,
      created_at := some 7, alarm := some 999 } 60
    (by decide) (by decide) rfl (by decide)
  rw [h.1]
  norm_num

/-- C7 counterexample: with `BACKEND_API_URL` missing, the configuration
error is raised before any network call (empty trace), but the alarm
handler catches it and registers a retry alarm 5 minutes later — the
configuration error IS retried automatically, refuting "never retried
automatically". -/
theorem C7_counterexample :
    (callBackendCleanup ⟨none, some "tkn"⟩
        ⟨.networkError, fun _ => .networkError⟩ "l1" [] "u1"
      = ([], .error .urlNotConfigured))
    ∧ (alarm ⟨none, some "tkn"⟩ ⟨.networkError, fun _ => .networkError⟩
        true 1000
        { user_id := some "u1", lab_request_id := some "l1",
          worker_lab_request_ids := some [], duration := some 60,
          created_at := some 0, alarm := none }).storage.alarm
      = some (1000 + 5 * 60 * 1000) := by
  constructor
  · rfl
  · rfl

/-- C7 amended: a missing backend URL or credential is raised before any
network call is attempted (the orchestration issues no call and fails);
but it is not exempted from retry: an alarm-time cleanup that hits the
configuration error is rescheduled `now + 5` minutes later like any other
failure. -/
theorem C7_config_error_fail_fast (env : Env) (backend : Backend)
    (m u : String) (ws : List String) (dbOk : Bool) (now : Int)
    (st : Storage)
    (hcfg : strPresent env.BACKEND_API_URL = false
      ∨ strPresent env.BACKEND_API_TOKEN = false)
    (hu : strPresent st.user_id = true)
    (hl : strPresent st.lab_request_id = true) :
    ((callBackendCleanup env backend m ws u).1 = []
      ∧ ((callBackendCleanup env backend m ws u).2 = .error .urlNotConfigured
        ∨ (callBackendCleanup env backend m ws u).2 = .error .tokenNotConfigured))
    ∧ (alarm env backend dbOk now st).storage.alarm
        = some (now + retryDelayMs) := by
  have hmain : ∀ m' u' : String, ∀ ws' : List String,
      (callBackendCleanup env backend m' ws' u').1 = []
      ∧ ((callBackendCleanup env backend m' ws' u').2 = .error .urlNotConfigured
        ∨ (callBackendCleanup env backend m' ws' u').2 = .error .tokenNotConfigured) := by
    intro m' u' ws'
    rcases hcfg with h | h
    · rw [callBackendCleanup, h]
      exact ⟨rfl, Or.inl rfl⟩
    · rw [callBackendCleanup, h]
      rcases hu2 : strPresent env.BACKEND_API_URL with _ | _
      · simp
      · simp
  refine ⟨hmain m u ws, ?_⟩
  rw [alarm, hu, hl]
  simp only [Bool.not_true, Bool.false_or, Bool.false_eq_true, if_false]
  rcases (hmain (st.lab_request_id.getD "") (st.user_id.getD "")
      (st.worker_lab_request_ids.getD [])).2 with h | h
  · simp [h]
  · simp [h]

/-- C7 amended witness: with a missing token, no call is issued, the
orchestration fails, and the alarm is re-armed 5 minutes later. -/
theorem C7_config_error_fail_fast_witness :
    (callBackendCleanup ⟨some "http://backend", none⟩
        ⟨.response 200, fun _ => .response 200⟩ "l1" [] "u1").1 = []
    ∧ (alarm ⟨some "http://backend", none⟩
        ⟨.response 200, fun _ => .response 200⟩ true 0
        { user_id := some "u1", lab_request_id := some "l1",
          worker_lab_request_ids := some [], duration := some 60,
          created_at := some 0, alarm := none }).storage.alarm
      = some (0 + retryDelayMs) := by
  have h := C7_config_error_fail_fast ⟨some "http://backend", none⟩
    ⟨.response 200, fun _ => .response 200⟩ "l1" "u1" [] true 0
    { user_id := some "u1", lab_request_id := some "l1",
      worker_lab_request_ids := some [], duration := some 60,
      created_at := some 0, alarm := none }
    (Or.inr (by decide)) (by decide) (by decide)
  exact ⟨h.1.1, h.2⟩

/-- C8 counterexample: a schedule request with `worker_lab_request_ids`
missing — one of the four arguments absent — is not rejected: it succeeds
and mutates the actor state, refuting "validates that all four arguments
are present". -/
theorem C8_counterexample :
    scheduleCleanup
        { user_id := some "u1", lab_request_id := some "l1",
          worker_lab_request_ids := none, duration := some 60 } 0
        Storage.empty
      = ({ user_id := some "u1", lab_request_id := some "l1",
           worker_lab_request_ids := some [], duration := some 60,
           created_at := some 0, alarm := some 3600000 },
         .scheduled "u1" "l1" 3600000 60) := by
  rfl

/-- C8 amended: `scheduleCleanup` validates the presence/non-emptiness of
`user_id`, `lab_request_id` and `duration` only; if any of those three is
missing it reports a validation error to the caller and performs no state
change, while a missing `worker_lab_request_ids` is silently defaulted to
the empty list. -/
theorem C8_validates_three_fields (body : ScheduleBody) (now : Int)
    (st : Storage)
    (h : strPresent body.user_id = false
      ∨ strPresent body.lab_request_id = false
      ∨ numPresent body.duration = false) :
    scheduleCleanup body now st = (st, .missingFields) := by
  rw [scheduleCleanup]
  rcases h with h | h | h <;> rw [h] <;> simp

/-- C8 amended witness: a schedule request with an empty `user_id` is
rejected with no state change. -/
theorem C8_validates_three_fields_witness :
    scheduleCleanup
        { user_id := some "", lab_request_id := some "l1",
          worker_lab_request_ids := some [], duration := some 60 } 0
        Storage.empty
      = (Storage.empty, .missingFields) := by
  exact C8_validates_three_fields
    { user_id := some "", lab_request_id := some "l1",
      worker_lab_request_ids := some [], duration := some 60 } 0
    Storage.empty (Or.inl (by decide))

/-! ### Claims about the session store handler -/

/-- C9: a create for a user who already has a session in the store fails
with the conflict error and leaves the store unchanged (no insert, no
update); moreover every create preserves the at-most-one-session-per-user
invariant of the store. -/
theorem C9_create_conflict (db : List DbRow) (b : LabSessionBody)
    (genId u : String) (row : DbRow)
    (hval : labSessionMissingFields b = [])
    (hu : b.user_id = some u)
    (hrow : row ∈ db) (hrowu : row.user_id = u) :
    createLabSession db (some b) genId = (db, .conflict)
    ∧ ∀ (db2 : List DbRow) (body2 : Option LabSessionBody) (gen2 : String),
        (db2.map DbRow.user_id).Nodup →
        ((createLabSession db2 body2 gen2).1.map DbRow.user_id).Nodup := by
  constructor
  · rw [createLabSession, hval]
    simp only [List.isEmpty_nil, Bool.not_true, Bool.false_eq_true, if_false]
    have hfind : (db.find? (fun r => r.user_id == b.user_id.getD "")).isSome := by
      rw [List.find?_isSome]
      refine ⟨row, hrow, ?_⟩
      rw [hu, hrowu]
      simp
    rcases hres : db.find? (fun r => r.user_id == b.user_id.getD "") with _ | r
    · rw [hres] at hfind
      exact absurd hfind (by simp)
    · rw [hres]
  · intro db2 body2 gen2 hnodup
    rcases body2 with _ | b2
    · exact hnodup
    · rw [createLabSession]
      rcases hempty : (labSessionMissingFields b2).isEmpty with _ | _
      · exact hnodup
      · rcases hres : db2.find? (fun r => r.user_id == b2.user_id.getD "") with _ | r
        · have hnew : b2.user_id.getD "" ∉ db2.map DbRow.user_id := by
            intro hmem
            rcases List.mem_map.mp hmem with ⟨r, hr, hru⟩
            have := List.find?_eq_none.mp hres r hr
            simp [hru] at this
          simp only [Bool.not_true, Bool.false_eq_true, if_false]
          rw [hres]
          simp [List.nodup_append, hnodup, hnew]
        · simp only [Bool.not_true, Bool.false_eq_true, if_false]
          rw [hres]
          exact hnodup

/-- C9 witness: a second create for user "u1" over a store already
holding a session for "u1" answers 409 and leaves the store as it was. -/
theorem C9_create_conflict_witness :
    createLabSession [sampleRow] (some sampleBody2) "gen-id"
      = ([sampleRow], .conflict) := by
  exact (C9_create_conflict _ _ "gen-id" "u1" _ (by decide) rfl
    (List.mem_singleton.mpr rfl) rfl).1

/-! ### Helper lemmas on the authentication utilities -/

theorem nat_or_eq_zero {a b : Nat} : a ||| b = 0 ↔ a = 0 ∧ b = 0 := by
  constructor
  · intro h
    constructor
    · refine Nat.eq_of_testBit_eq (fun i => ?_)
      have hbit := congrArg (fun n => Nat.testBit n i) h
      simp only [Nat.testBit_or] at hbit
      simp only [Nat.zero_testBit] at hbit ⊢
      exact (Bool.or_eq_false_iff.mp hbit).1
    · refine Nat.eq_of_testBit_eq (fun i => ?_)
      have hbit := congrArg (fun n => Nat.testBit n i) h
      simp only [Nat.testBit_or] at hbit
      simp only [Nat.zero_testBit] at hbit ⊢
      exact (Bool.or_eq_false_iff.mp hbit).2
  · rintro ⟨rfl, rfl⟩
    rfl

theorem foldl_or_eq_zero (l : List Nat) : ∀ acc : Nat,
    (l.foldl (· ||| ·) acc = 0 ↔ acc = 0 ∧ ∀ x ∈ l, x = 0) := by
  induction l with
  | nil => intro acc; simp
  | cons x xs ih =>
    intro acc
    rw [List.foldl_cons, ih]
    rw [nat_or_eq_zero]
    constructor
    · rintro ⟨⟨hacc, hx⟩, hall⟩
      exact ⟨hacc, by
        intro y hy
        rcases List.mem_cons.mp hy with rfl | hy2
        · exact hx
        · exact hall y hy2⟩
    · rintro ⟨hacc, hall⟩
      exact ⟨⟨hacc, hall x (List.mem_cons_self x xs)⟩,
        fun y hy => hall y (List.mem_cons_of_mem x hy)⟩

theorem char_eq_of_toNat {c d : Char} (h : c.toNat = d.toNat) : c = d := by
  have h2 := congrArg Char.ofNat h
  rwa [Char.ofNat_toNat, Char.ofNat_toNat] at h2

theorem zipWith_xor_eq_zero (a : List Char) : ∀ b : List Char,
    a.length = b.length →
    ((∀ x ∈ List.zipWith (fun c d => c.toNat ^^^ d.toNat) a b, x = 0) ↔ a = b) := by
  induction a with
  | nil =>
    intro b hlen
    cases b with
    | nil => simp
    | cons d ds => simp at hlen
  | cons c cs ih =>
    intro b hlen
    cases b with
    | nil => simp at hlen
    | cons d ds =>
      rw [List.zipWith_cons_cons]
      constructor
      · intro h
        have h1 : c.toNat ^^^ d.toNat = 0 := h _ (List.mem_cons_self _ _)
        have hc : c = d := char_eq_of_toNat (Nat.xor_eq_zero.mp h1)
        have h2 := (ih ds (by simpa using hlen)).mp
          (fun x hx => h x (List.mem_cons_of_mem _ hx))
        rw [hc, h2]
      · intro h x hx
        injection h with hc hcs
        rcases List.mem_cons.mp hx with rfl | hx2
        · rw [hc]
          simp
        · exact (ih ds (by simpa using hlen)).mpr hcs x hx2

theorem timingSafeEqual_iff (a b : List Char) :
    timingSafeEqual a b = true ↔ a = b := by
  rw [timingSafeEqual]
  by_cases hlen : a.length = b.length
  · have hne : (a.length != b.length) = false := by simp [hlen]
    rw [hne]
    simp only [Bool.false_eq_true, if_false, beq_iff_eq]
    rw [foldl_or_eq_zero]
    constructor
    · rintro ⟨-, hall⟩
      exact (zipWith_xor_eq_zero a b hlen).mp hall
    · intro h
      exact ⟨rfl, (zipWith_xor_eq_zero a b hlen).mpr h⟩
  · have hne : (a.length != b.length) = true := by simpa using hlen
    rw [hne]
    simp only [if_true]
    constructor
    · intro h
      exact absurd h (by simp)
    · intro h
      exact absurd (congrArg List.length h) hlen

theorem splitChar_ne_nil (sep : Char) (l : List Char) : splitChar sep l ≠ [] := by
  cases l with
  | nil => simp [splitChar]
  | cons c cs =>
    rw [splitChar]
    rcases h : splitChar sep cs with _ | ⟨p, t⟩
    · simp
    · by_cases hc : c = sep <;> simp [hc]

theorem splitChar_of_not_mem {sep : Char} {l : List Char} (h : sep ∉ l) :
    splitChar sep l = [l] := by
  induction l with
  | nil => rfl
  | cons c cs ih =>
    have hc : ¬c = sep := fun hh => h (by rw [hh]; exact List.mem_cons_self _ _)
    have hcs : sep ∉ cs := fun hh => h (List.mem_cons_of_mem _ hh)
    rw [splitChar, ih hcs]
    simp [hc]

theorem splitChar_append {sep : Char} {l₁ : List Char} (l₂ : List Char)
    (h : sep ∉ l₁) :
    splitChar sep (l₁ ++ sep :: l₂) = l₁ :: splitChar sep l₂ := by
  induction l₁ with
  | nil =>
    simp only [List.nil_append]
    rw [splitChar]
    rcases hs : splitChar sep l₂ with _ | ⟨p, t⟩
    · exact absurd hs (splitChar_ne_nil sep l₂)
    · simp
  | cons c cs ih =>
    have hc : ¬c = sep := fun hh => h (by rw [hh]; exact List.mem_cons_self _ _)
    have hcs : sep ∉ cs := fun hh => h (List.mem_cons_of_mem _ hh)
    rw [List.cons_append, splitChar, ih hcs]
    simp [hc]

theorem splitChar_single {sep : Char} : ∀ {l a : List Char},
    splitChar sep l = [a] → l = a ∧ sep ∉ a := by
  intro l
  induction l with
  | nil =>
    intro a h
    rw [splitChar] at h
    injection h with h1 h2
    rw [← h1]
    exact ⟨rfl, by simp⟩
  | cons c cs ih =>
    intro a h
    rw [splitChar] at h
    rcases hs : splitChar sep cs with _ | ⟨p, t⟩
    · exact absurd hs (splitChar_ne_nil sep cs)
    · rw [hs] at h
      dsimp only at h
      by_cases hc : c = sep
      · rw [if_pos hc] at h
        exact absurd h (by simp)
      · rw [if_neg hc] at h
        injection h with h1 h2
        subst h2
        obtain ⟨hcs, hnp⟩ := ih hs
        constructor
        · rw [← h1, hcs]
        · rw [← h1]
          intro hmem
          rcases List.mem_cons.mp hmem with heq | hmem2
          · exact hc heq.symm
          · exact hnp hmem2

theorem splitChar_pair {sep : Char} : ∀ {l a b : List Char},
    splitChar sep l = [a, b] → l = a ++ sep :: b ∧ sep ∉ a ∧ sep ∉ b := by
  intro l
  induction l with
  | nil =>
    intro a b h
    rw [splitChar] at h
    injection h with h1 h2
    exact absurd h2 (by simp)
  | cons c cs ih =>
    intro a b h
    rw [splitChar] at h
    rcases hs : splitChar sep cs with _ | ⟨p, t⟩
    · exact absurd hs (splitChar_ne_nil sep cs)
    · rw [hs] at h
      dsimp only at h
      by_cases hc : c = sep
      · rw [if_pos hc] at h
        injection h with h1 h2
        injection h2 with h3 h4
        subst h4
        subst h3
        obtain ⟨hcs, hnb⟩ := splitChar_single hs
        refine ⟨?_, ?_, hnb⟩
        · rw [← h1, hc, hcs]
          rfl
        · rw [← h1]
          simp
      · rw [if_neg hc] at h
        injection h with h1 h2
        obtain ⟨hcs, hnp, hnb⟩ := ih (by rw [hs, h2])
        refine ⟨?_, ?_, hnb⟩
        · rw [← h1, hcs]
          rfl
        · rw [← h1]
          intro hmem
          rcases List.mem_cons.mp hmem with heq | hmem2
          · exact hc heq.symm
          · exact hnp hmem2

theorem extractBearerToken_eq_some {authHeader : Option (List Char)}
    {t : List Char} (hext : extractBearerToken authHeader = some t) :
    authHeader = some ("Bearer".toList ++ ' ' :: t) ∧ ' ' ∉ t := by
  rcases authHeader with _ | h
  · exact absurd hext (by rw [extractBearerToken]; simp)
  · rw [extractBearerToken] at hext
    rcases hsp : splitChar ' ' h with _ | ⟨p0, rest⟩
    · exact absurd hsp (splitChar_ne_nil ' ' h)
    · rcases rest with _ | ⟨p1, rest2⟩
      · rw [hsp] at hext
        exact absurd hext (by simp)
      · rcases rest2 with _ | ⟨p2, rest3⟩
        · rw [hsp] at hext
          dsimp only at hext
          by_cases hp0 : p0 = "Bearer".toList
          · rw [if_pos hp0] at hext
            injection hext with ht
            subst ht
            obtain ⟨hh, -, hnt⟩ := splitChar_pair hsp
            rw [hh, hp0]
            exact ⟨rfl, hnt⟩
          · rw [if_neg hp0] at hext
            exact absurd hext (by simp)
        · rw [hsp] at hext
          exact absurd hext (by simp)

theorem extractBearerToken_bearer {t : List Char} (hnos : ' ' ∉ t) :
    extractBearerToken (some ("Bearer".toList ++ ' ' :: t)) = some t := by
  rw [extractBearerToken]
  have hsp : splitChar ' ' ("Bearer".toList ++ ' ' :: t)
      = ["Bearer".toList, t] := by
    rw [splitChar_append t (by decide), splitChar_of_not_mem hnos]
  rw [hsp]
  simp

/-! ### Claim about authentication -/

/-- C10: with no configured token (absent or empty) `authenticateRequest`
accepts every request — authentication is silently disabled; with a
configured non-empty token it accepts a request only when its
Authorization header is exactly `Bearer <token>` with the token equal to
the configured one (and, conversely, that exact header is accepted
whenever the token contains no space, so a well-formed header can be
built at all). -/
theorem C10_authenticate_bearer (authHeader : Option (List Char))
    (tok : Option (List Char)) :
    (charsPresent tok = false → authenticateRequest authHeader tok = true)
    ∧ (∀ tv, tok = some tv → charsPresent tok = true →
        ((authenticateRequest authHeader tok = true →
            authHeader = some ("Bearer".toList ++ ' ' :: tv))
         ∧ (' ' ∉ tv → authHeader = some ("Bearer".toList ++ ' ' :: tv) →
            authenticateRequest authHeader tok = true))) := by
  constructor
  · intro h
    rw [authenticateRequest, h]
    rfl
  · intro tv htok hpres
    subst htok
    have htv : ¬tv = [] := by
      rw [charsPresent] at hpres
      simpa using hpres
    constructor
    · intro hauth
      rw [authenticateRequest, hpres] at hauth
      simp only [Bool.not_true, Bool.false_eq_true, if_false] at hauth
      rcases hext : extractBearerToken authHeader with _ | t
      · rw [hext] at hauth
        exact absurd hauth (by simp)
      · rw [hext] at hauth
        dsimp only at hauth
        by_cases ht : t = []
        · rw [if_pos ht] at hauth
          exact absurd hauth (by simp)
        · rw [if_neg ht] at hauth
          have hteq : t = tv :=
            (timingSafeEqual_iff t ((some tv).getD [])).mp hauth
          subst hteq
          exact (extractBearerToken_eq_some hext).1
    · intro hnos hhead
      subst hhead
      rw [authenticateRequest, hpres]
      simp only [Bool.not_true, Bool.false_eq_true, if_false]
      rw [extractBearerToken_bearer hnos]
      dsimp only
      rw [if_neg htv]
      exact (timingSafeEqual_iff tv ((some tv).getD [])).mpr rfl

/-- C10 witness: with token "secret" configured, the header
`Bearer secret` authenticates; applying the theorem at that input. -/
theorem C10_authenticate_bearer_witness :
    authenticateRequest (some ("Bearer".toList ++ ' ' :: "secret".toList))
        (some ("secret".toList)) = true := by
  exact ((C10_authenticate_bearer
    (some ("Bearer".toList ++ ' ' :: "secret".toList))
    (some ("secret".toList))).2 "secret".toList rfl (by decide)).2
    (by decide) rfl

end CleanupWorker
